import Mathlib

/-!
Verification development for `s3_listobjectversions_to_csv.py`, the resumable
S3 object-version-to-CSV export script.

The Python source is shallowly embedded below:

* the key-name encoding applied to output rows (`urllib.parse.quote_plus`
  with `safe='/'`, line 466/506) is embedded as `quotePlus`;
* the deduplication identity (lines 452/492) as `dedupIdent`, and the
  identity built while scanning an existing CSV for resume (line 273) as
  `csvSeedIdent`;
* the per-page dedupe/emit loop of `process_batch` (lines 450-527) as
  `processRecords`, and the orchestration of an uninterrupted vs an
  interrupted-then-resumed export (`export_versions`, lines 626-866) as
  `uninterruptedRun` / `interruptedThenResumed`;
* checkpoint persistence (`_save_resume_state`, lines 176-206) and
  validation (`_load_resume_state`, lines 208-251) as `saveResumeState` /
  `loadResumeState`;
* the dedup-set watermark trim (lines 796-801) as `trimStep`;
* the CSV writer worker (`csv_writer_worker`, lines 356-427) as `runWriter`;
* the pagination loop (lines 736-818) as `listingLoop`.

Machine integers do not occur (Python integers are unbounded); timestamps and
file modification times are modelled as integer seconds, which is all the
comparisons in the source use them for.
-/

namespace S3Export

/-! ### Key-name encoding (`urllib.parse.quote_plus(key, safe='/', encoding='utf-8')`) -/

/-- Standard UTF-8 encoding of one character's code point, written with
division/remainder on unbounded naturals.  `quote_plus` percent-escapes the
UTF-8 bytes of the key, so the embedding needs the byte sequence. -/
def utf8EncodeChar (c : Char) : List Nat :=
  let n := c.toNat
  if n < 128 then [n]
  else if n < 2048 then [192 + n / 64, 128 + n % 64]
  else if n < 65536 then [224 + n / 4096, 128 + (n / 64) % 64, 128 + n % 64]
  else [240 + n / 262144, 128 + (n / 4096) % 64, 128 + (n / 64) % 64, 128 + n % 64]

/-- The bytes `urllib.parse.quote` leaves unescaped: ASCII letters, digits,
`_ . - ~` (the always-safe set) together with `/` (passed as `safe='/'` at
lines 466 and 506 of the source). -/
def isSafeByte (b : Nat) : Bool :=
  (65 ≤ b && b ≤ 90) || (97 ≤ b && b ≤ 122) || (48 ≤ b && b ≤ 57) ||
    b == 95 || b == 46 || b == 45 || b == 126 || b == 47

/-- Upper-case hexadecimal digit, as produced by `urllib.parse.quote`. -/
def hexDigitChar (n : Nat) : Char :=
  if n < 10 then Char.ofNat (48 + n) else Char.ofNat (55 + n)

/-- A percent-escape `%XX` of one byte. -/
def percentEscape (b : Nat) : List Char :=
  ['%', hexDigitChar (b / 16), hexDigitChar (b % 16)]

/-- How `quote_plus` renders one byte: safe bytes verbatim, the space byte as
`+`, every other byte percent-escaped. -/
def quotePlusByte (b : Nat) : List Char :=
  if isSafeByte b then [Char.ofNat b]
  else if b == 32 then ['+']
  else percentEscape b

/-- `urllib.parse.quote_plus(s, safe='/', encoding='utf-8')`: UTF-8 encode,
then render each byte. -/
def quotePlus (s : String) : String :=
  String.mk (((s.data.map utf8EncodeChar).flatten.map quotePlusByte).flatten)

/-- Modelled from the spec: "`key_name` optionally percent-encoded, preserving
the path separator" / "UTF-8 percent-escaping of every character requiring it".
Plain percent-encoding: every byte outside the unreserved set (and `/`) is
percent-escaped — including the space byte, for which form encoding would
instead write `+`.  Used only to compare the spec's wording with the source's
`quote_plus`. -/
def specPercentEncodeByte (b : Nat) : List Char :=
  if isSafeByte b then [Char.ofNat b] else percentEscape b

/-- Modelled from the spec: percent-encoding of a whole key (see
`specPercentEncodeByte`). -/
def specPercentEncodeKey (s : String) : String :=
  String.mk (((s.data.map utf8EncodeChar).flatten.map specPercentEncodeByte).flatten)

/-- Line 466/506: `key_name = quote_plus(key, safe='/') if url_encode else key`. -/
def rowKeyName (url_encode : Bool) (key : String) : String :=
  if url_encode then quotePlus key else key

/-! ### Records, rows and deduplication identities -/

/-- The identity-relevant fields of one entry of a listing page (an element of
`response['Versions']` or `response['DeleteMarkers']`): the raw object key and
the version id.  The remaining fields (size, timestamps, flags) play no role
in any claim. -/
structure SrcRec where
  key : String
  versionId : String
deriving DecidableEq, Repr

/-- Lines 452 and 492: `key_version = f"{r['Key']}-{r['VersionId']}"`, the
composite deduplication identity. -/
def dedupIdent (r : SrcRec) : String :=
  r.key ++ "-" ++ r.versionId

/-- The claim-relevant projection of an output row (the compact-mode columns;
full mode adds columns that no claim mentions). -/
structure Row where
  bucket_name : String
  key_name : String
  version_id : String
deriving DecidableEq, Repr

/-- Lines 466-473 (and symmetrically 506-513 for delete markers): the output
row built for a record. -/
def mkRow (url_encode : Bool) (bucket : String) (r : SrcRec) : Row :=
  { bucket_name := bucket
    key_name := rowKeyName url_encode r.key
    version_id := r.versionId }

/-- Line 273 in `_check_existing_csv_for_resume`:
`key_version = f"{row['key_name']}-{row['version_id']}"` — the identity seeded
from an existing CSV row is built from the (possibly encoded) `key_name`
column, not from the raw key. -/
def csvSeedIdent (row : Row) : String :=
  row.key_name ++ "-" ++ row.version_id

/-! ### The dedupe/emit loop of `process_batch` and the page loop of `export_versions`

`self.processed_keys` is a Python set of strings; it is modelled as a
`List String` used only through membership (`contains`) and insertion, which
is how `process_batch` uses it.  A listing page is the merged, ordered
sequence of its `Versions` and `DeleteMarkers` entries; both are pushed
through the identical skip-if-seen / mark / enqueue logic
(lines 450-487 and 490-527). -/

/-- Lines 450-527, the per-record loop of `process_batch`: for each record,
skip it if its `dedupIdent` is already in `processed_keys`, otherwise mark the
identity and enqueue the output row. -/
def processRecords (url_encode : Bool) (bucket : String) :
    List SrcRec → List String → List Row × List String
  | [], seen => ([], seen)
  | r :: rest, seen =>
    let kv := dedupIdent r
    if seen.contains kv then processRecords url_encode bucket rest seen
    else
      let out := processRecords url_encode bucket rest (kv :: seen)
      (mkRow url_encode bucket r :: out.1, out.2)

/-- The page loop of `export_versions` (lines 736-818) restricted to its
dedupe/emit dataflow: process each fetched page in order, threading
`processed_keys`.  (Cursor handling and termination are modelled separately
by `listingLoop`.) -/
def runPages (url_encode : Bool) (bucket : String) :
    List (List SrcRec) → List String → List Row × List String
  | [], seen => ([], seen)
  | p :: rest, seen =>
    let b := processRecords url_encode bucket p seen
    let out := runPages url_encode bucket rest b.2
    (b.1 ++ out.1, out.2)

/-- A fresh, uninterrupted export over the bucket's pages: no existing CSV, so
`processed_keys` starts empty (lines 73, 669-675) and every page is processed
in order.  Returns the rows written to the CSV. -/
def uninterruptedRun (url_encode : Bool) (bucket : String)
    (pages : List (List SrcRec)) : List Row :=
  (runPages url_encode bucket pages []).1

/-- The state of a run interrupted after `j` whole pages plus the first `m`
records of page `j`: the rows enqueued so far (all of which the writer drains
before the process exits, lines 827-831) and the `processed_keys` set saved in
the interrupt checkpoint (lines 819-826). -/
def phase1Run (url_encode : Bool) (bucket : String)
    (pages : List (List SrcRec)) (j m : Nat) : List Row × List String :=
  let full := runPages url_encode bucket (pages.take j) []
  let pr := processRecords url_encode bucket (((pages.get? j).getD []).take m) full.2
  (full.1 ++ pr.1, pr.2)

/-- The resumed run (lines 677-698 and 716-730 with a successful checkpoint
load): `processed_keys` is restored from the checkpoint (line 233), the
existing CSV is then scanned and each row's `csvSeedIdent` added (lines
269-275 via line 698), and the page loop restarts from the checkpoint's
cursor. -/
def resumedRun (url_encode : Bool) (bucket : String)
    (pages : List (List SrcRec)) (checkpointKeys : List String)
    (csvRows : List Row) (cursor : Nat) : List Row :=
  (runPages url_encode bucket (pages.drop cursor)
    (checkpointKeys ++ csvRows.map csvSeedIdent)).1

/-- A run interrupted at `(j, m)` whose checkpoint cursor is `cursor`
(the markers saved at the interrupt point to the batch being replayed),
followed by a resumed run over the same, unchanged pages: the CSV finally
holds the rows of both phases. -/
def interruptedThenResumed (url_encode : Bool) (bucket : String)
    (pages : List (List SrcRec)) (j m cursor : Nat) : List Row :=
  let p1 := phase1Run url_encode bucket pages j m
  p1.1 ++ resumedRun url_encode bucket pages p1.2 p1.1 cursor

/-! ### The dedup-set watermark trim -/

/-- Lines 796-801 of `export_versions`:
`if len(self.processed_keys) >= 200000: self.processed_keys =
set(list(self.processed_keys)[-10000:])`.  The argument `enum` is the list
produced by `list(self.processed_keys)` — *some* enumeration of the set, in
Python's hash-determined iteration order; `[-10000:]` keeps its last 10000
elements. -/
def trimStep (enum : List String) : List String :=
  if 200000 ≤ enum.length then enum.drop (enum.length - 10000) else enum

/-! ### Checkpoint manager (`_save_resume_state` / `_load_resume_state`)

Timestamps (`datetime.now().isoformat()` round-tripped through
`fromisoformat`) and file modification times are modelled as integer seconds;
the source only ever compares them (`> timedelta(hours=24)`,
`abs(...) > 10`). -/

/-- The `timestamp` field as `_load_resume_state` sees it: absent (falsy, age
check skipped, line 224), present but unparseable (line 229-230), or a valid
time. -/
inductive TsField where
  | missing : TsField
  | invalid : TsField
  | valid : Int → TsField
deriving DecidableEq, Repr

/-- The JSON state written by `_save_resume_state` (lines 183-195). `prefix`
is a reserved word in Lean, so the field is named `pfx`. -/
structure ResumeState where
  bucket_name : String
  pfx : Option String
  next_key_marker : Option String
  next_version_marker : Option String
  batch_num : Nat
  total_items : Nat
  timestamp : TsField
  original_start_time : Int
  cumulative_runtime : Int
  csv_mtime : Option Int
  processed_keys : List String
deriving DecidableEq, Repr

/-- `_save_resume_state` (lines 176-206): the state dict it writes, given the
wall clock `now` and the output file's existence and modification time. -/
def saveResumeState (bucket : String) (pfx : Option String)
    (next_key_marker next_version_marker : Option String)
    (batch_num total_items : Nat) (now : Int)
    (original_start_time cumulative_runtime : Int)
    (outputExists : Bool) (outputMtime : Int)
    (processed : List String) : ResumeState :=
  { bucket_name := bucket
    pfx := pfx
    next_key_marker := next_key_marker
    next_version_marker := next_version_marker
    batch_num := batch_num
    total_items := total_items
    timestamp := TsField.valid now
    original_start_time := original_start_time
    cumulative_runtime := cumulative_runtime
    csv_mtime := if outputExists then some outputMtime else none
    processed_keys := processed }

/-- How a Python f-string renders an optional string (`None` prints as
`None`). -/
def pyStr (o : Option String) : String :=
  match o with
  | none => "None"
  | some s => s

/-- Line 219. -/
def bucketMismatchMsg (ckpt cur : String) : String :=
  "bucket mismatch (checkpoint: " ++ (ckpt ++ (", current: " ++ (cur ++ ")")))

/-- Line 221. -/
def prefixMismatchMsg (ckpt cur : Option String) : String :=
  "prefix mismatch (checkpoint: " ++ (pyStr ckpt ++ (", current: " ++ (pyStr cur ++ ")")))

/-- Line 228. -/
def staleCheckpointMsg : String :=
  "checkpoint is more than 24 hours old"

/-- Line 230. -/
def invalidTimestampMsg : String :=
  "invalid checkpoint timestamp"

/-- Line 243. -/
def csvModifiedMsg : String :=
  "CSV file was modified externally since last checkpoint"

/-- Line 251. -/
def corruptedCheckpointMsg (e : String) : String :=
  "corrupted checkpoint file (" ++ (e ++ ")")

/-- Lines 239-243: the external-modification check.  Performed only when the
saved `csv_mtime` is truthy (not `None`, not `0`) and the output file exists;
rejects when the current modification time differs from the recorded one by
more than 10 seconds. -/
def mtimeCheck (st : ResumeState) (outputExists : Bool) (currentMtime : Int) :
    Except String ResumeState :=
  match st.csv_mtime with
  | none => Except.ok st
  | some m =>
    if m = 0 then Except.ok st
    else if outputExists then
      if 10 < (currentMtime - m).natAbs then Except.error csvModifiedMsg
      else Except.ok st
    else Except.ok st

/-- `_load_resume_state` (lines 208-251): parse the state file (`raw` is
`Except.error e` when reading or JSON-decoding raises, line 250-251), then
validate bucket, prefix, checkpoint age (strictly more than 24 hours = 86400
seconds rejects) and output-file modification time, in source order.  On
success the parsed state itself is returned. -/
def loadResumeState (raw : Except String ResumeState) (bucket : String)
    (pfx : Option String) (now : Int) (outputExists : Bool)
    (currentMtime : Int) : Except String ResumeState :=
  match raw with
  | Except.error e => Except.error (corruptedCheckpointMsg e)
  | Except.ok st =>
    if st.bucket_name ≠ bucket then
      Except.error (bucketMismatchMsg st.bucket_name bucket)
    else if st.pfx ≠ pfx then
      Except.error (prefixMismatchMsg st.pfx pfx)
    else
      match st.timestamp with
      | TsField.invalid => Except.error invalidTimestampMsg
      | TsField.valid t =>
        if 86400 < now - t then Except.error staleCheckpointMsg
        else mtimeCheck st outputExists currentMtime
      | TsField.missing => mtimeCheck st outputExists currentMtime

/-! ### The CSV writer worker (`csv_writer_worker`, lines 356-427)

The worker drains a queue of rows (`None` is the stop sentinel) into a sort
buffer and flushes the sorted buffer to the file.  The queue is modelled as
the complete list of items the producer puts; each pass of the collect loop
gathers at most 2000 items (its 2-second window is abstracted by the `caps`
schedule: the number of items available in that window).  A `True` entry of
`fails` makes the corresponding mid-loop `csvfile.flush()` raise, as an I/O
error would; the rows of that buffer have already been handed to `writerow`
when the flush raises, and the inner `except` (lines 412-415) catches the
error, bumps `error_count` and leaves `sort_buffer` intact (the in-place
`sort` has already replaced it by its sorted form). -/

/-- Python's string comparison: lexicographic on the sequences of code
points. -/
def charListLe : List Char → List Char → Bool
  | [], _ => true
  | _ :: _, [] => false
  | a :: as, b :: bs =>
    if a < b then true
    else if b < a then false
    else charListLe as bs

/-- Comparison used by `sort_buffer.sort(key=lambda x: x['key_name'])`
(lines 399 and 419): Python string order on the key-name strings. -/
def rowLe (a b : Row) : Prop :=
  charListLe a.key_name.data b.key_name.data = true

instance : DecidableRel rowLe := fun a b =>
  inferInstanceAs (Decidable (charListLe a.key_name.data b.key_name.data = true))

/-- The in-place `sort_buffer.sort(key=lambda x: x['key_name'])`: a stable
sort by `key_name` (Python's Timsort; any stable sort has the same
input/output contract, so a structurally recursive stable sort stands in). -/
def sortByKeyName (l : List Row) : List Row :=
  l.insertionSort rowLe

/-- The inner collect loop (lines 383-393): pull up to `cap` items off the
queue; a `None` sentinel sets `stop_writer` and breaks.  Returns the collected
batch, the remaining queue and whether the sentinel was seen. -/
def collectBatch : List (Option Row) → Nat → List Row × List (Option Row) × Bool
  | q, 0 => ([], q, false)
  | [], _ + 1 => ([], [], false)
  | none :: q, _ + 1 => ([], q, true)
  | some r :: q, n + 1 =>
    let rest := collectBatch q n
    (r :: rest.1, rest.2.1, rest.2.2)

/-- Observable outcome of one worker run: the rows passed to `writerow` in
order, the rows of each flush attempt (the write units), the shared error
counter, the shared processed counter, and whether the model ran out of fuel
(which a sentinel-terminated queue never does). -/
structure WriterResult where
  file : List Row
  units : List (List Row)
  errorCount : Nat
  totalProcessed : Nat
  hung : Bool
deriving DecidableEq, Repr

/-- Lines 417-423: after the loop exits, any remaining buffered rows are
sorted and written (no explicit flush; the `with` block closes the file). -/
def finalWrite (buf : List Row) (acc : WriterResult) : WriterResult :=
  if buf = [] then acc
  else
    let sorted := sortByKeyName buf
    { acc with
      file := acc.file ++ sorted
      units := acc.units ++ [sorted]
      totalProcessed := acc.totalProcessed + sorted.length }

/-- The worker's main loop, lines 378-415:
`while not self.stop_writer or not self.write_queue.empty()`.  Each pass
collects a batch, extends `sort_buffer`, and flushes when the buffer holds at
least 4000 rows or the worker is stopping with a non-empty buffer.  A failing
flush is caught by the inner `except`: `error_count` is incremented, the
(already sorted and already written) buffer is retained, and the loop simply
continues — the fatal handler at lines 425-427 is not reached from here. -/
def writerLoop : Nat → List (Option Row) → List Nat → List Bool → Bool →
    List Row → WriterResult → WriterResult
  | 0, q, _, _, stop, buf, acc =>
    if ¬stop ∨ q ≠ [] then { acc with hung := true } else finalWrite buf acc
  | fuel + 1, q, caps, fails, stop, buf, acc =>
    if ¬stop ∨ q ≠ [] then
      let col := collectBatch q (min (caps.headD 2000) 2000)
      let stop' := stop ∨ col.2.2
      let buf' := buf ++ col.1
      if 4000 ≤ buf'.length ∨ (stop' ∧ buf' ≠ []) then
        let sorted := sortByKeyName buf'
        if fails.headD false then
          writerLoop fuel col.2.1 caps.tail fails.tail stop' sorted
            { acc with
              file := acc.file ++ sorted
              units := acc.units ++ [sorted]
              errorCount := acc.errorCount + 1 }
        else
          writerLoop fuel col.2.1 caps.tail fails.tail stop' []
            { acc with
              file := acc.file ++ sorted
              units := acc.units ++ [sorted]
              totalProcessed := acc.totalProcessed + sorted.length }
      else
        writerLoop fuel col.2.1 caps.tail fails stop' buf' acc
    else
      finalWrite buf acc

/-- One full run of `csv_writer_worker` over a queue: `stop_writer` starts
false, the buffer empty, the counters zero. -/
def runWriter (q : List (Option Row)) (caps : List Nat)
    (fails : List Bool) : WriterResult :=
  writerLoop (q.length + 1) q caps fails false [] ⟨[], [], 0, 0, false⟩

/-! ### The pagination loop of `export_versions` (lines 736-818)

The loop's control flow over the sequence of fetched pages: one
`process_batch` call per iteration; on an error result the run checkpoints
and exits; on `is_truncated` the cursor is advanced to the page's
`next_key_marker` / `next_version_marker` and the loop continues; on the
first page with `is_truncated == False` it breaks. -/

/-- The result dict `process_batch` returns (lines 533-539). -/
structure PageResult where
  batch_count : Nat
  is_truncated : Bool
  next_key_marker : Option String
  next_version_marker : Option String
  error : Option String
deriving DecidableEq, Repr

/-- How the pagination loop ends: normal completion (line 814-818), the fatal
error path (line 786), or the supplied page trace ran out while the loop
still wanted another page. -/
inductive ListingExit where
  | completed : ListingExit
  | failed : ListingExit
  | exhausted : ListingExit
deriving DecidableEq, Repr

/-- Trace of one run of the pagination loop: how many `process_batch`
iterations ran, the cursor each iteration fetched with, and how the loop
ended. -/
structure ListingOutcome where
  iterations : Nat
  cursors : List (Option String × Option String)
  exit : ListingExit
deriving DecidableEq, Repr

/-- The pagination loop over the finite trace of fetched pages, starting from
cursor `cur` (the pair `(next_key_marker, next_version_marker)`). -/
def listingLoop : List PageResult → Option String × Option String → ListingOutcome
  | [], _ => ⟨0, [], ListingExit.exhausted⟩
  | p :: rest, cur =>
    if p.error.isSome then ⟨1, [cur], ListingExit.failed⟩
    else if p.is_truncated then
      let out := listingLoop rest (p.next_key_marker, p.next_version_marker)
      ⟨out.iterations + 1, cur :: out.cursors, out.exit⟩
    else ⟨1, [cur], ListingExit.completed⟩

/-! ### Concrete inputs used by the evaluation theorems -/

/-- Two listing pages of an unchanged bucket: page 0 holds the object
`"a b"` (version `"v"`), page 1 holds the distinct object `"a+b"`
(version `"v"`).  Note `quote_plus "a b" = "a+b"`: the encoded name of the
first key is the raw name of the second. -/
def pagesEx : List (List SrcRec) :=
  [[⟨"a b", "v"⟩], [⟨"a+b", "v"⟩]]

/-- A single output row. -/
def rowEx : Row := ⟨"bkt", "k", "v"⟩

/-- Distinct string identities indexed by naturals, used to populate a large
dedup set symbolically. -/
def sId (n : Nat) : String :=
  String.mk (List.replicate n 'a')

/-- 200000 identities in the order they were marked: `sId 0` first,
`sId 199999` last. -/
def insEx : List String :=
  (List.range 200000).map sId

/-- Two `processed_keys` lists that model the same Python set: they hold the
same identities. -/
def SeenEquiv (s₁ s₂ : List String) : Prop :=
  ∀ x, x ∈ s₁ ↔ x ∈ s₂

/-! ### Claims -/

/-- Claim C1: with resume enabled and URL encoding at its default (`True`),
an interrupted-and-resumed export is NOT always equal to the uninterrupted
one.  On `pagesEx`, the uninterrupted run writes two rows, but a run
interrupted after page 0 and resumed from its checkpoint omits the
`("a%2Bb", "v")` row: the resume pre-seed built from the CSV's encoded
`key_name` column (line 273) produces the identity `"a+b-v"`, which collides
with the raw-key dedup identity (line 452) of the distinct object `"a+b"`,
so that object is wrongly suppressed.  The dedup machinery documents itself
as existing "to avoid duplicates" across resumes; seeding it with encoded
keys while fetch-side identities use raw keys defeats that purpose. -/
theorem interrupted_resume_loses_rows :
    uninterruptedRun true "b" pagesEx =
      [⟨"b", "a+b", "v"⟩, ⟨"b", "a%2Bb", "v"⟩] ∧
    interruptedThenResumed true "b" pagesEx 1 0 1 = [⟨"b", "a+b", "v"⟩] ∧
    (⟨"b", "a%2Bb", "v"⟩ : Row) ∈ uninterruptedRun true "b" pagesEx ∧
    (⟨"b", "a%2Bb", "v"⟩ : Row) ∉ interruptedThenResumed true "b" pagesEx 1 0 1 := by
  exact ⟨by decide, by decide, by decide, by decide⟩

/-- Claim C10: the identity seeded from an existing CSV row (line 273, built
from the encoded `key_name` column) differs from the identity computed for
the same record at fetch time (line 452, built from the raw key) whenever URL
encoding (the default) changes the key — here for the key `"a b"`.  With
encoding disabled the two identities agree. -/
theorem csv_seed_ident_differs_from_fetch_ident :
    dedupIdent ⟨"a b", "v"⟩ = "a b-v" ∧
    csvSeedIdent (mkRow true "b" ⟨"a b", "v"⟩) = "a+b-v" ∧
    csvSeedIdent (mkRow true "b" ⟨"a b", "v"⟩) ≠ dedupIdent ⟨"a b", "v"⟩ ∧
    csvSeedIdent (mkRow false "b" ⟨"a b", "v"⟩) = dedupIdent ⟨"a b", "v"⟩ := by
  exact ⟨by decide, by decide, by decide, by decide⟩

/-- Claim C2: a flush failure in the Batch Writer does NOT terminate the job.
With one queued row and a failing first flush, `csv_writer_worker`'s inner
`except` (lines 412-415) swallows the error: the run completes normally
(`hung = false`, the fatal handler is never reached), `error_count` is 1, and
the retained buffer is re-written by the shutdown path (lines 417-423), so
the row appears twice in the file.  The failure-free run of the same queue is
shown for contrast. -/
theorem writer_continues_after_flush_failure :
    runWriter [some rowEx, none] [] [true] =
      { file := [rowEx, rowEx], units := [[rowEx], [rowEx]], errorCount := 1,
        totalProcessed := 1, hung := false } ∧
    runWriter [some rowEx, none] [] [] =
      { file := [rowEx], units := [[rowEx]], errorCount := 0,
        totalProcessed := 1, hung := false } := by
  exact ⟨by decide, by decide⟩

/-- Claim C8, counterexample: with URL encoding enabled, the emitted
`key_name` is `quote_plus`, not percent-encoding — the space in the key
`"a b"` becomes `"+"`, where percent-encoding of the raw key writes
`"%20"`. -/
theorem space_encoded_as_plus_not_percent :
    rowKeyName true "a b" = "a+b" ∧
    specPercentEncodeKey "a b" = "a%20b" ∧
    rowKeyName true "a b" ≠ specPercentEncodeKey "a b" := by
  exact ⟨by decide, by decide, by decide⟩

/-- Claim C9, counterexample: the composite identity `key ++ "-" ++
version_id` is not injective — the distinct records `("a-b", "c")` and
`("a", "b-c")` share the identity `"a-b-c"`. -/
theorem dedup_ident_not_injective :
    dedupIdent ⟨"a-b", "c"⟩ = dedupIdent ⟨"a", "b-c"⟩ ∧
    (⟨"a-b", "c"⟩ : SrcRec) ≠ ⟨"a", "b-c"⟩ := by
  exact ⟨by decide, by decide⟩

/-- Two strings whose first `n` characters differ are different. -/
theorem string_ne_of_take_ne (s t : String) (n : Nat)
    (hne : s.data.take n ≠ t.data.take n) : s ≠ t :=
  fun h => hne (congrArg (fun u => u.data.take n) h)

/-- The first `n` characters of `q ++ y` are those of `q` when `q` is long
enough. -/
theorem take_data_append (q y : String) (n : Nat) (h : n ≤ q.data.length) :
    (q ++ y).data.take n = q.data.take n := by
  rw [String.data_append, List.take_append_of_le_length h]

/-- Claim C3: a checkpoint written by `_save_resume_state` and loaded by
`_load_resume_state` with the same bucket, prefix and output file, within 24
hours (at most 86400 seconds later) and with the output file unmodified (same
modification time), loads successfully and returns exactly the saved cursor
markers and the saved `total_items`. -/
theorem checkpoint_roundtrip
    (bucket : String) (pfx nk nv : Option String) (batch total : Nat)
    (nowS nowL ost crt : Int) (outputExists : Bool) (mtime : Int)
    (processed : List String) (hAge : nowL - nowS ≤ 86400) :
    loadResumeState
        (Except.ok (saveResumeState bucket pfx nk nv batch total nowS ost crt
          outputExists mtime processed))
        bucket pfx nowL outputExists mtime =
      Except.ok (saveResumeState bucket pfx nk nv batch total nowS ost crt
        outputExists mtime processed) ∧
    (saveResumeState bucket pfx nk nv batch total nowS ost crt
      outputExists mtime processed).next_key_marker = nk ∧
    (saveResumeState bucket pfx nk nv batch total nowS ost crt
      outputExists mtime processed).next_version_marker = nv ∧
    (saveResumeState bucket pfx nk nv batch total nowS ost crt
      outputExists mtime processed).total_items = total := by
  refine ⟨?_, rfl, rfl, rfl⟩
  have h1 : ¬ (86400 < nowL - nowS) := by omega
  by_cases hoe : outputExists <;> by_cases hm : mtime = 0 <;>
    simp [loadResumeState, saveResumeState, mtimeCheck, hoe, hm, h1]

/-- Witness for `checkpoint_roundtrip` at a concrete checkpoint: saved at
time 0, loaded at time 100, output file mtime 5 in both runs. -/
theorem checkpoint_roundtrip_witness :
    loadResumeState
        (Except.ok (saveResumeState "b" (some "p") (some "k") (some "i") 3 42 0 0 0
          true 5 ["x"]))
        "b" (some "p") 100 true 5 =
      Except.ok (saveResumeState "b" (some "p") (some "k") (some "i") 3 42 0 0 0
        true 5 ["x"]) ∧
    (saveResumeState "b" (some "p") (some "k") (some "i") 3 42 0 0 0
      true 5 ["x"]).next_key_marker = some "k" ∧
    (saveResumeState "b" (some "p") (some "k") (some "i") 3 42 0 0 0
      true 5 ["x"]).next_version_marker = some "i" ∧
    (saveResumeState "b" (some "p") (some "k") (some "i") 3 42 0 0 0
      true 5 ["x"]).total_items = 42 :=
  checkpoint_roundtrip "b" (some "p") (some "k") (some "i") 3 42 0 100 0 0
    true 5 ["x"] (by decide)

/-- Claim C4: `_load_resume_state` rejects — returning an error result, with
a distinct message for each reason — whenever the stored bucket differs, the
stored prefix differs, the checkpoint is more than 24 hours old, the output
file's modification time differs from the recorded fingerprint by more than
10 seconds, or the state file is structurally corrupt.  The final conjunct
shows the five messages are pairwise distinct for all payloads. -/
theorem checkpoint_rejections :
    (∀ (st : ResumeState) (bucket : String) (pfx : Option String)
        (now : Int) (oe : Bool) (cm : Int), st.bucket_name ≠ bucket →
      loadResumeState (Except.ok st) bucket pfx now oe cm =
        Except.error (bucketMismatchMsg st.bucket_name bucket)) ∧
    (∀ (st : ResumeState) (bucket : String) (pfx : Option String)
        (now : Int) (oe : Bool) (cm : Int),
      st.bucket_name = bucket → st.pfx ≠ pfx →
      loadResumeState (Except.ok st) bucket pfx now oe cm =
        Except.error (prefixMismatchMsg st.pfx pfx)) ∧
    (∀ (st : ResumeState) (bucket : String) (pfx : Option String)
        (now : Int) (oe : Bool) (cm : Int) (t : Int),
      st.bucket_name = bucket → st.pfx = pfx →
      st.timestamp = TsField.valid t → 86400 < now - t →
      loadResumeState (Except.ok st) bucket pfx now oe cm =
        Except.error staleCheckpointMsg) ∧
    (∀ (st : ResumeState) (bucket : String) (pfx : Option String)
        (now : Int) (cm : Int) (t : Int) (m : Int),
      st.bucket_name = bucket → st.pfx = pfx →
      st.timestamp = TsField.valid t → now - t ≤ 86400 →
      st.csv_mtime = some m → m ≠ 0 → 10 < (cm - m).natAbs →
      loadResumeState (Except.ok st) bucket pfx now true cm =
        Except.error csvModifiedMsg) ∧
    (∀ (e bucket : String) (pfx : Option String) (now : Int) (oe : Bool)
        (cm : Int),
      loadResumeState (Except.error e) bucket pfx now oe cm =
        Except.error (corruptedCheckpointMsg e)) ∧
    (∀ (cb c : String) (op cp : Option String) (e : String),
      bucketMismatchMsg cb c ≠ prefixMismatchMsg op cp ∧
      bucketMismatchMsg cb c ≠ staleCheckpointMsg ∧
      bucketMismatchMsg cb c ≠ csvModifiedMsg ∧
      bucketMismatchMsg cb c ≠ corruptedCheckpointMsg e ∧
      prefixMismatchMsg op cp ≠ staleCheckpointMsg ∧
      prefixMismatchMsg op cp ≠ csvModifiedMsg ∧
      prefixMismatchMsg op cp ≠ corruptedCheckpointMsg e ∧
      staleCheckpointMsg ≠ csvModifiedMsg ∧
      staleCheckpointMsg ≠ corruptedCheckpointMsg e ∧
      csvModifiedMsg ≠ corruptedCheckpointMsg e) := by
  refine ⟨?_, ?_, ?_, ?_, ?_, ?_⟩
  · intro st bucket pfx now oe cm h
    simp [loadResumeState, h]
  · intro st bucket pfx now oe cm h1 h2
    simp [loadResumeState, h1, h2]
  · intro st bucket pfx now oe cm t h1 h2 h3 h4
    obtain ⟨bn, pf, nk, nv, bnum, ti, ts, o1, c1, cmt, pk⟩ := st
    simp only at h1 h2 h3
    subst h1 h2 h3
    simp [loadResumeState, h4]
  · intro st bucket pfx now cm t m h1 h2 h3 h4 h5 h6 h7
    obtain ⟨bn, pf, nk, nv, bnum, ti, ts, o1, c1, cmt, pk⟩ := st
    simp only at h1 h2 h3 h5
    subst h1 h2 h3 h5
    have h4n : ¬ (86400 < now - t) := by omega
    simp [loadResumeState, mtimeCheck, h4n, h6, h7]
  · intro e bucket pfx now oe cm
    rfl
  · intro cb c op cp e
    refine ⟨?_, ?_, ?_, ?_, ?_, ?_, ?_, by decide, ?_, ?_⟩
    · apply string_ne_of_take_ne _ _ 6
      rw [bucketMismatchMsg, prefixMismatchMsg,
        take_data_append _ _ 6 (by decide), take_data_append _ _ 6 (by decide)]
      decide
    · apply string_ne_of_take_ne _ _ 6
      rw [bucketMismatchMsg, take_data_append _ _ 6 (by decide)]
      decide
    · apply string_ne_of_take_ne _ _ 6
      rw [bucketMismatchMsg, take_data_append _ _ 6 (by decide)]
      decide
    · apply string_ne_of_take_ne _ _ 6
      rw [bucketMismatchMsg, corruptedCheckpointMsg,
        take_data_append _ _ 6 (by decide), take_data_append _ _ 6 (by decide)]
      decide
    · apply string_ne_of_take_ne _ _ 6
      rw [prefixMismatchMsg, take_data_append _ _ 6 (by decide)]
      decide
    · apply string_ne_of_take_ne _ _ 6
      rw [prefixMismatchMsg, take_data_append _ _ 6 (by decide)]
      decide
    · apply string_ne_of_take_ne _ _ 6
      rw [prefixMismatchMsg, corruptedCheckpointMsg,
        take_data_append _ _ 6 (by decide), take_data_append _ _ 6 (by decide)]
      decide
    · apply string_ne_of_take_ne _ _ 6
      rw [corruptedCheckpointMsg, take_data_append _ _ 6 (by decide)]
      decide
    · apply string_ne_of_take_ne _ _ 6
      rw [corruptedCheckpointMsg, take_data_append _ _ 6 (by decide)]
      decide

/-- Witness for `checkpoint_rejections`: each rejection branch exercised at a
concrete state. -/
theorem checkpoint_rejections_witness :
    loadResumeState (Except.ok ⟨"old", none, none, none, 0, 0,
        TsField.valid 0, 0, 0, none, []⟩) "new" none 0 true 0 =
      Except.error (bucketMismatchMsg "old" "new") ∧
    loadResumeState (Except.ok ⟨"b", some "p", none, none, 0, 0,
        TsField.valid 0, 0, 0, none, []⟩) "b" (some "q") 0 true 0 =
      Except.error (prefixMismatchMsg (some "p") (some "q")) ∧
    loadResumeState (Except.ok ⟨"b", none, none, none, 0, 0,
        TsField.valid 0, 0, 0, none, []⟩) "b" none 90000 true 0 =
      Except.error staleCheckpointMsg ∧
    loadResumeState (Except.ok ⟨"b", none, none, none, 0, 0,
        TsField.valid 0, 0, 0, some 5, []⟩) "b" none 0 true 100 =
      Except.error csvModifiedMsg ∧
    loadResumeState (Except.error "boom") "b" none 0 true 0 =
      Except.error (corruptedCheckpointMsg "boom") ∧
    bucketMismatchMsg "old" "new" ≠ prefixMismatchMsg (some "p") (some "q") := by
  refine ⟨?_, ?_, ?_, ?_, ?_, ?_⟩
  · exact checkpoint_rejections.1 ⟨"old", none, none, none, 0, 0,
      TsField.valid 0, 0, 0, none, []⟩ "new" none 0 true 0 (by decide)
  · exact checkpoint_rejections.2.1 ⟨"b", some "p", none, none, 0, 0,
      TsField.valid 0, 0, 0, none, []⟩ "b" (some "q") 0 true 0 rfl (by decide)
  · exact checkpoint_rejections.2.2.1 ⟨"b", none, none, none, 0, 0,
      TsField.valid 0, 0, 0, none, []⟩ "b" none 90000 true 0 0 rfl rfl rfl
      (by decide)
  · exact checkpoint_rejections.2.2.2.1 ⟨"b", none, none, none, 0, 0,
      TsField.valid 0, 0, 0, some 5, []⟩ "b" none 0 100 0 5 rfl rfl rfl
      (by decide) rfl (by decide) (by decide)
  · exact checkpoint_rejections.2.2.2.2.1 "boom" "b" none 0 true 0
  · exact (checkpoint_rejections.2.2.2.2.2 "old" "new" (some "p") (some "q")
      "x").1

/-! ### Claim C5: the watermark trim -/

/-- `sId` is injective (the strings have distinct lengths). -/
theorem sId_inj {a b : Nat} (h : sId a = sId b) : a = b := by
  have := congrArg (fun s => s.data.length) h
  simpa [sId] using this

/-- Elements in the dropped tail of a `range` list are at least the drop
count. -/
theorem mem_drop_range {n k m : Nat} (h : m ∈ (List.range n).drop k) :
    k ≤ m := by
  obtain ⟨i, hi, hEq⟩ := List.mem_iff_getElem.mp h
  rw [List.getElem_drop, List.getElem_range] at hEq
  omega

/-- Claim C5, counterexample: `list(self.processed_keys)` enumerates a Python
set in hash-determined order, not in marking order; `trimStep` keeps the last
10000 elements of that enumeration, whatever it is.  For the marking order
`insEx`, the reversed enumeration `insEx.reverse` is a permutation of the
set's 200000 elements under which the trim keeps `sId 0` — the identity
marked FIRST — even though `sId 0` is not among the 10000 most recently
marked identities (`insEx.drop 190000`).  So the trimmed set is not "exactly
the 10000 most-recently-marked identities". -/
theorem trim_keeps_arbitrary_subset_not_most_recent :
    insEx.reverse.Perm insEx ∧
    200000 ≤ insEx.reverse.length ∧
    sId 0 ∈ trimStep insEx.reverse ∧
    sId 0 ∉ insEx.drop (insEx.length - 10000) := by
  have hlen : insEx.length = 200000 := by simp [insEx]
  refine ⟨List.reverse_perm insEx, by simp [hlen], ?_, ?_⟩
  · have h1 : trimStep insEx.reverse = (insEx.take 10000).reverse := by
      rw [trimStep, if_pos (by simp [hlen]), List.length_reverse, hlen,
        List.drop_reverse, hlen]
    rw [h1, List.mem_reverse, insEx, ← List.map_take, List.take_range]
    exact List.mem_map.mpr ⟨0, List.mem_range.mpr (by norm_num), rfl⟩
  · rw [hlen, insEx]
    intro hmem
    rw [← List.map_drop] at hmem
    obtain ⟨n, hn, hEq⟩ := List.mem_map.mp hmem
    have h0 : n = 0 := sId_inj hEq
    have h190 : 200000 - 10000 ≤ n := mem_drop_range hn
    omega

/-- Claim C5, amended: when the set holds at least the 200000-entry high
watermark, the trim replaces it by exactly 10000 of its own elements — the
last 10000 of the set's (hash-determined) enumeration — but which 10000
depends on that enumeration, not on marking recency. -/
theorem trim_keeps_10000_of_its_elements (enum : List String)
    (h : 200000 ≤ enum.length) :
    (trimStep enum).length = 10000 ∧ ∀ x ∈ trimStep enum, x ∈ enum := by
  rw [trimStep, if_pos h]
  refine ⟨?_, fun x hx => List.mem_of_mem_drop hx⟩
  rw [List.length_drop]
  omega

/-- Witness for `trim_keeps_10000_of_its_elements` at a concrete 200000-entry
enumeration. -/
theorem trim_keeps_10000_of_its_elements_witness :
    200000 ≤ (List.replicate 200000 "a").length ∧
    (trimStep (List.replicate 200000 "a")).length = 10000 ∧
    ∀ x ∈ trimStep (List.replicate 200000 "a"), x ∈ List.replicate 200000 "a" := by
  have hl : 200000 ≤ (List.replicate 200000 "a").length := by
    rw [List.length_replicate]
  exact ⟨hl, (trim_keeps_10000_of_its_elements _ hl).1,
    (trim_keeps_10000_of_its_elements _ hl).2⟩

/-! ### Claim C6: local sort of every flushed write unit -/

/-- `charListLe` is total. -/
theorem charListLe_total : ∀ (a b : List Char),
    charListLe a b = true ∨ charListLe b a = true := by
  intro a
  induction a with
  | nil => intro b; exact Or.inl rfl
  | cons x xs ih =>
    intro b
    cases b with
    | nil => exact Or.inr rfl
    | cons y ys =>
      simp only [charListLe]
      rcases lt_trichotomy x y with h | h | h
      · left; rw [if_pos h]
      · subst h
        rw [if_neg (lt_irrefl x), if_neg (lt_irrefl x), if_neg (lt_irrefl x),
          if_neg (lt_irrefl x)]
        exact ih ys
      · right; rw [if_pos h]

/-- `charListLe` is transitive. -/
theorem charListLe_trans : ∀ (a b c : List Char), charListLe a b = true →
    charListLe b c = true → charListLe a c = true := by
  intro a
  induction a with
  | nil => intro b c _ _; rfl
  | cons x xs ih =>
    intro b c h1 h2
    cases b with
    | nil => simp [charListLe] at h1
    | cons y ys =>
      cases c with
      | nil => simp [charListLe] at h2
      | cons z zs =>
        simp only [charListLe] at h1 h2 ⊢
        rcases lt_trichotomy x y with hxy | hxy | hxy
        · rcases lt_trichotomy y z with hyz | hyz | hyz
          · rw [if_pos (lt_trans hxy hyz)]
          · rw [if_pos (hyz ▸ hxy)]
          · rw [if_neg (asymm hyz), if_pos hyz] at h2
            exact absurd h2 (by simp)
        · subst hxy
          rw [if_neg (lt_irrefl x), if_neg (lt_irrefl x)] at h1
          rcases lt_trichotomy x z with hyz | hyz | hyz
          · rw [if_pos hyz]
          · subst hyz
            rw [if_neg (lt_irrefl x), if_neg (lt_irrefl x)] at h2 ⊢
            exact ih ys zs h1 h2
          · rw [if_neg (asymm hyz), if_pos hyz] at h2
            exact absurd h2 (by simp)
        · rw [if_neg (asymm hxy), if_pos hxy] at h1
          exact absurd h1 (by simp)

/-- The sort the writer applies to a buffer yields a list whose `key_name`
values are non-decreasing. -/
theorem sorted_sortByKeyName (l : List Row) :
    List.Sorted rowLe (sortByKeyName l) := by
  haveI : IsTotal Row rowLe :=
    ⟨fun a b => charListLe_total a.key_name.data b.key_name.data⟩
  haveI : IsTrans Row rowLe :=
    ⟨fun a b c => charListLe_trans a.key_name.data b.key_name.data c.key_name.data⟩
  exact List.sorted_insertionSort rowLe l

/-- Appending one sorted unit preserves sortedness of the unit list. -/
theorem units_extend_sorted {acc : WriterResult} {buf : List Row}
    (hacc : ∀ u ∈ acc.units, List.Sorted rowLe u) :
    ∀ u ∈ acc.units ++ [sortByKeyName buf], List.Sorted rowLe u := by
  intro u hu
  rcases List.mem_append.mp hu with h | h
  · exact hacc u h
  · rw [List.mem_singleton] at h
    subst h
    exact sorted_sortByKeyName buf

/-- Every unit the shutdown path appends is sorted. -/
theorem finalWrite_units_sorted (buf : List Row) (acc : WriterResult)
    (hacc : ∀ u ∈ acc.units, List.Sorted rowLe u) :
    ∀ u ∈ (finalWrite buf acc).units, List.Sorted rowLe u := by
  rw [finalWrite]
  split
  · exact hacc
  · exact units_extend_sorted hacc

/-- Invariant: the writer loop only ever appends sorted units. -/
theorem writerLoop_units_sorted : ∀ (fuel : Nat) (q : List (Option Row))
    (caps : List Nat) (fails : List Bool) (stop : Bool) (buf : List Row)
    (acc : WriterResult),
    (∀ u ∈ acc.units, List.Sorted rowLe u) →
    ∀ u ∈ (writerLoop fuel q caps fails stop buf acc).units,
      List.Sorted rowLe u := by
  intro fuel
  induction fuel with
  | zero =>
    intro q caps fails stop buf acc hacc
    rw [writerLoop]
    split
    · exact hacc
    · exact finalWrite_units_sorted buf acc hacc
  | succ n ih =>
    intro q caps fails stop buf acc hacc
    rw [writerLoop]
    split
    · dsimp only
      split
      · split
        · exact ih _ _ _ _ _ _ (units_extend_sorted hacc)
        · exact ih _ _ _ _ _ _ (units_extend_sorted hacc)
      · exact ih _ _ _ _ _ _ hacc
    · exact finalWrite_units_sorted buf acc hacc

/-- Claim C6: within every single flushed write unit of the CSV writer —
each sorted buffer appended to the file, including the final partial buffer
written at shutdown — the sequence of `key_name` values is non-decreasing
(`rowLe` is Python's string order on `key_name`).  Nothing is claimed across
units. -/
theorem flush_units_sorted (q : List (Option Row)) (caps : List Nat)
    (fails : List Bool) :
    ∀ u ∈ (runWriter q caps fails).units, List.Sorted rowLe u := by
  rw [runWriter]
  exact writerLoop_units_sorted _ _ _ _ _ _ _ (by intro u hu; cases hu)

/-- Witness for `flush_units_sorted`: the single write unit of a one-row run
is sorted. -/
theorem flush_units_sorted_witness :
    [rowEx] ∈ (runWriter [some rowEx, none] [] []).units ∧
    List.Sorted rowLe [rowEx] :=
  ⟨by decide, flush_units_sorted [some rowEx, none] [] [] [rowEx] (by decide)⟩

/-- Claim C7: for a finite trace of fetched pages — every page before the
last truncated, the last not truncated, no page carrying an error — the
pagination loop terminates normally with exactly one iteration per page, the
first iteration fetching at the starting cursor and every later iteration at
the previous page's markers, exiting on the first page with
`is_truncated = False`. -/
theorem listing_terminates (ps : List PageResult) (q : PageResult)
    (cur : Option String × Option String)
    (hTrunc : ∀ p ∈ ps, p.is_truncated = true)
    (hNoErr : ∀ p ∈ ps, p.error = none)
    (hLast : q.is_truncated = false) (hLastErr : q.error = none) :
    listingLoop (ps ++ [q]) cur =
      ⟨ps.length + 1,
       cur :: ps.map (fun p => (p.next_key_marker, p.next_version_marker)),
       ListingExit.completed⟩ := by
  induction ps generalizing cur with
  | nil =>
    simp [listingLoop, hLastErr, hLast]
  | cons p rest ih =>
    have hp : p.is_truncated = true := hTrunc p (List.mem_cons_self p rest)
    have hpe : p.error = none := hNoErr p (List.mem_cons_self p rest)
    have ihr := ih (p.next_key_marker, p.next_version_marker)
      (fun r hr => hTrunc r (List.mem_cons_of_mem p hr))
      (fun r hr => hNoErr r (List.mem_cons_of_mem p hr))
    simp [listingLoop, hpe, hp, ihr]

/-- Witness for `listing_terminates`: a two-page trace (one truncated page,
then a final page). -/
theorem listing_terminates_witness :
    listingLoop [⟨7, true, some "k", some "i", none⟩,
        ⟨3, false, none, none, none⟩] (none, none) =
      ⟨2, [(none, none), (some "k", some "i")], ListingExit.completed⟩ :=
  listing_terminates [⟨7, true, some "k", some "i", none⟩]
    ⟨3, false, none, none, none⟩ (none, none) (by decide) (by decide) rfl rfl

/-! ### Claim C8, amended: `quote_plus` vs percent-encoding -/

/-- A byte other than the space byte is rendered identically by `quote_plus`
and by plain percent-encoding. -/
theorem quotePlusByte_eq_of_ne_space {b : Nat} (h : b ≠ 32) :
    quotePlusByte b = specPercentEncodeByte b := by
  rw [quotePlusByte, specPercentEncodeByte]
  split
  · rfl
  · rw [if_neg (by simp [h])]

/-- The space character is the only one whose UTF-8 encoding contains the
byte 32: ASCII characters encode to their own code point, and every byte of a
multi-byte encoding is at least 128. -/
theorem utf8_no_space {c : Char} (h : c ≠ ' ') :
    ∀ b ∈ utf8EncodeChar c, b ≠ 32 := by
  intro b hb
  simp only [utf8EncodeChar] at hb
  by_cases h1 : c.toNat < 128
  · rw [if_pos h1, List.mem_singleton] at hb
    subst hb
    intro hEq
    exact h (Char.ext (UInt32.ext hEq))
  · rw [if_neg h1] at hb
    by_cases h2 : c.toNat < 2048
    · rw [if_pos h2] at hb
      simp only [List.mem_cons, List.not_mem_nil, or_false] at hb
      rcases hb with hb | hb <;> omega
    · rw [if_neg h2] at hb
      by_cases h3 : c.toNat < 65536
      · rw [if_pos h3] at hb
        simp only [List.mem_cons, List.not_mem_nil, or_false] at hb
        rcases hb with hb | hb | hb <;> omega
      · rw [if_neg h3] at hb
        simp only [List.mem_cons, List.not_mem_nil, or_false] at hb
        rcases hb with hb | hb | hb | hb <;> omega

/-- On keys without a space character, `quote_plus` coincides with plain
percent-encoding. -/
theorem quotePlus_eq_specPercentEncode {k : String} (h : ' ' ∉ k.data) :
    quotePlus k = specPercentEncodeKey k := by
  rw [quotePlus, specPercentEncodeKey]
  congr 1
  congr 1
  apply List.map_congr_left
  intro b hb
  rw [List.mem_flatten] at hb
  obtain ⟨l, hl, hbl⟩ := hb
  rw [List.mem_map] at hl
  obtain ⟨c, hc, rfl⟩ := hl
  have hcs : c ≠ ' ' := fun hEq => h (hEq ▸ hc)
  exact quotePlusByte_eq_of_ne_space (utf8_no_space hcs b hbl)

/-- Claim C8, amended: with key encoding enabled, `key_name` is the
form-style quoting `quote_plus` — identical to UTF-8 percent-encoding with
`/` preserved on every key without a space, while a space becomes `+` rather
than `%20` (the counterexample above shows the difference); with encoding
disabled,
`key_name` is the raw key unchanged. -/
theorem key_encoding_amended (k : String) (h : ' ' ∉ k.data) :
    rowKeyName true k = specPercentEncodeKey k ∧ rowKeyName false k = k :=
  ⟨quotePlus_eq_specPercentEncode h, rfl⟩

/-- Witness for `key_encoding_amended` at a concrete space-free key. -/
theorem key_encoding_amended_witness :
    ' ' ∉ ("a/b.c+é" : String).data ∧
    rowKeyName true "a/b.c+é" = specPercentEncodeKey "a/b.c+é" ∧
    rowKeyName false "a/b.c+é" = "a/b.c+é" :=
  ⟨by decide, (key_encoding_amended "a/b.c+é" (by decide)).1,
   (key_encoding_amended "a/b.c+é" (by decide)).2⟩

/-! ### Claim C9, amended: injectivity of the dedup identity -/

/-- If a separator element occurs in neither suffix, splitting a joined list
at it is unambiguous. -/
theorem append_sep_inj {α : Type} {x : α} :
    ∀ (a b s t : List α), x ∉ s → x ∉ t →
      a ++ x :: s = b ++ x :: t → a = b ∧ s = t := by
  intro a
  induction a with
  | nil =>
    intro b s t hs _ h
    cases b with
    | nil =>
      simp only [List.nil_append, List.cons.injEq] at h
      exact ⟨rfl, h.2⟩
    | cons y bs =>
      simp only [List.nil_append, List.cons_append, List.cons.injEq] at h
      exact absurd (h.2 ▸ List.mem_append_right bs (List.mem_cons_self x t)) hs
  | cons y as ih =>
    intro b s t hs ht h
    cases b with
    | nil =>
      simp only [List.nil_append, List.cons_append, List.cons.injEq] at h
      exact absurd (h.2 ▸ List.mem_append_right as (List.mem_cons_self x s)) ht
    | cons z bs =>
      simp only [List.cons_append, List.cons.injEq] at h
      obtain ⟨rfl, h2⟩ := h
      obtain ⟨h3, h4⟩ := ih bs s t hs ht h2
      exact ⟨by rw [h3], h4⟩

/-- The character data of a dedup identity: raw key, dash, version id. -/
theorem dedupIdent_data (r : SrcRec) :
    (dedupIdent r).data = r.key.data ++ '-' :: r.versionId.data := by
  rw [dedupIdent, String.data_append, String.data_append, List.append_assoc]
  rfl

/-- Claim C9, amended: the composite identity `key ++ "-" ++ version_id` is
injective on records whose version ids contain no `'-'` (keys are
unrestricted); in general distinct records can collide, as the
counterexample above shows. -/
theorem dedup_ident_injective_without_dash (r₁ r₂ : SrcRec)
    (h₁ : '-' ∉ r₁.versionId.data) (h₂ : '-' ∉ r₂.versionId.data)
    (h : dedupIdent r₁ = dedupIdent r₂) : r₁ = r₂ := by
  have hd := congrArg String.data h
  rw [dedupIdent_data, dedupIdent_data] at hd
  obtain ⟨hk, hv⟩ := append_sep_inj _ _ _ _ h₁ h₂ hd
  cases r₁ with
  | mk k1 v1 =>
    cases r₂ with
    | mk k2 v2 =>
      simp only at hk hv
      rw [show k1 = k2 from String.ext hk, show v1 = v2 from String.ext hv]

/-- Witness for `dedup_ident_injective_without_dash` at concrete records. -/
theorem dedup_ident_injective_without_dash_witness :
    '-' ∉ ("v.1" : String).data ∧
    (⟨"k-a", "v.1"⟩ : SrcRec) = ⟨"k-a", "v.1"⟩ :=
  ⟨by decide,
   dedup_ident_injective_without_dash ⟨"k-a", "v.1"⟩ ⟨"k-a", "v.1"⟩
     (by decide) (by decide) rfl⟩

/-! ### Interrupt/resume exactness when key encoding is disabled

The concrete divergence exhibited for claim C1 hinges on the CSV pre-seed
using encoded key names.  The following development shows the resume scheme
is otherwise sound: with `url_encode = False` (where `csvSeedIdent` coincides
with `dedupIdent`), an interrupted-and-resumed run reproduces the
uninterrupted run's row list exactly, for every interrupt point and either
admissible checkpoint cursor. -/

/-- Membership-equivalent seen lists answer `contains` identically. -/
theorem contains_congr {s₁ s₂ : List String} (h : SeenEquiv s₁ s₂)
    (a : String) : s₁.contains a = s₂.contains a := by
  by_cases hm : a ∈ s₁
  · rw [List.contains, List.contains, List.elem_iff.mpr hm,
      List.elem_iff.mpr ((h a).mp hm)]
  · have h2 : a ∉ s₂ := fun hh => hm ((h a).mpr hh)
    rw [List.contains, List.contains,
      Bool.eq_false_iff.mpr (fun hh => hm (List.elem_iff.mp hh)),
      Bool.eq_false_iff.mpr (fun hh => h2 (List.elem_iff.mp hh))]

/-- Processing a concatenation of record lists composes. -/
theorem processRecords_append (u : Bool) (bk : String) (l₁ l₂ : List SrcRec)
    (s : List String) :
    processRecords u bk (l₁ ++ l₂) s =
      ((processRecords u bk l₁ s).1 ++
        (processRecords u bk l₂ (processRecords u bk l₁ s).2).1,
       (processRecords u bk l₂ (processRecords u bk l₁ s).2).2) := by
  induction l₁ generalizing s with
  | nil => simp [processRecords]
  | cons r rest ih =>
    simp only [List.cons_append, processRecords]
    split
    · exact ih s
    · simp [ih]

/-- The seen set only grows. -/
theorem processRecords_seen_mono (u : Bool) (bk : String) (l : List SrcRec)
    {s : List String} {x : String} (hx : x ∈ s) :
    x ∈ (processRecords u bk l s).2 := by
  induction l generalizing s with
  | nil => exact hx
  | cons r rest ih =>
    simp only [processRecords]
    split
    · exact ih hx
    · exact ih (List.mem_cons_of_mem _ hx)

/-- Every scanned record's identity ends up in the seen set. -/
theorem processRecords_marks (u : Bool) (bk : String) (l : List SrcRec)
    {s : List String} {r : SrcRec} (hr : r ∈ l) :
    dedupIdent r ∈ (processRecords u bk l s).2 := by
  induction l generalizing s with
  | nil => cases hr
  | cons p rest ih =>
    simp only [processRecords]
    rcases List.mem_cons.mp hr with rfl | hr2
    · split
      · next hc => exact processRecords_seen_mono u bk rest (List.elem_iff.mp hc)
      · exact processRecords_seen_mono u bk rest (List.mem_cons_self _ _)
    · split
      · exact ih hr2
      · exact ih hr2

/-- Without encoding, every emitted row's CSV-seed identity is in the final
seen set (it equals the record's dedup identity, which is marked on
emission). -/
theorem processRecords_emitted (bk : String) (l : List SrcRec)
    (s : List String) {row : Row}
    (hrow : row ∈ (processRecords false bk l s).1) :
    csvSeedIdent row ∈ (processRecords false bk l s).2 := by
  induction l generalizing s with
  | nil => cases hrow
  | cons p rest ih =>
    simp only [processRecords] at hrow ⊢
    by_cases hc : s.contains (dedupIdent p) = true
    · rw [if_pos hc] at hrow ⊢
      exact ih s hrow
    · rw [if_neg hc] at hrow ⊢
      dsimp only at hrow ⊢
      rcases List.mem_cons.mp hrow with rfl | h2
      · exact processRecords_seen_mono false bk rest (List.mem_cons_self _ _)
      · exact ih (dedupIdent p :: s) h2

/-- Membership-equivalent seen sets produce the same emissions and
membership-equivalent final sets. -/
theorem processRecords_congr (u : Bool) (bk : String) (l : List SrcRec)
    {s₁ s₂ : List String} (h : SeenEquiv s₁ s₂) :
    (processRecords u bk l s₁).1 = (processRecords u bk l s₂).1 ∧
    SeenEquiv (processRecords u bk l s₁).2 (processRecords u bk l s₂).2 := by
  induction l generalizing s₁ s₂ with
  | nil => exact ⟨rfl, h⟩
  | cons r rest ih =>
    simp only [processRecords]
    rw [contains_congr h (dedupIdent r)]
    split
    · exact ih h
    · have h2 : SeenEquiv (dedupIdent r :: s₁) (dedupIdent r :: s₂) := by
        intro x
        simp [h x]
      obtain ⟨e1, e2⟩ := ih h2
      exact ⟨by dsimp only; rw [e1], e2⟩

/-- Records whose identities are already seen are skipped without effect. -/
theorem processRecords_skip (u : Bool) (bk : String) (l₁ l₂ : List SrcRec)
    (s : List String) (h : ∀ r ∈ l₁, dedupIdent r ∈ s) :
    processRecords u bk (l₁ ++ l₂) s = processRecords u bk l₂ s := by
  induction l₁ with
  | nil => rfl
  | cons r rest ih =>
    simp only [List.cons_append, processRecords]
    rw [if_pos (List.elem_iff.mpr (h r (List.mem_cons_self r rest)))]
    exact ih (fun p hp => h p (List.mem_cons_of_mem r hp))

/-- Page-level composition. -/
theorem runPages_append (u : Bool) (bk : String) (P₁ P₂ : List (List SrcRec))
    (s : List String) :
    runPages u bk (P₁ ++ P₂) s =
      ((runPages u bk P₁ s).1 ++
        (runPages u bk P₂ (runPages u bk P₁ s).2).1,
       (runPages u bk P₂ (runPages u bk P₁ s).2).2) := by
  induction P₁ generalizing s with
  | nil => simp [runPages]
  | cons p rest ih =>
    simp only [List.cons_append, runPages]
    simp [ih]

/-- Page-level monotonicity of the seen set. -/
theorem runPages_seen_mono (u : Bool) (bk : String) (P : List (List SrcRec))
    {s : List String} {x : String} (hx : x ∈ s) :
    x ∈ (runPages u bk P s).2 := by
  induction P generalizing s with
  | nil => exact hx
  | cons p rest ih =>
    simp only [runPages]
    exact ih (processRecords_seen_mono u bk p hx)

/-- Page-level version of `processRecords_emitted`. -/
theorem runPages_emitted (bk : String) (P : List (List SrcRec))
    (s : List String) {row : Row}
    (hrow : row ∈ (runPages false bk P s).1) :
    csvSeedIdent row ∈ (runPages false bk P s).2 := by
  induction P generalizing s with
  | nil => cases hrow
  | cons p rest ih =>
    simp only [runPages] at hrow ⊢
    rcases List.mem_append.mp hrow with h | h
    · exact runPages_seen_mono false bk rest (processRecords_emitted bk p s h)
    · exact ih _ h

/-- Page-level congruence under membership equivalence. -/
theorem runPages_congr (u : Bool) (bk : String) (P : List (List SrcRec))
    {s₁ s₂ : List String} (h : SeenEquiv s₁ s₂) :
    (runPages u bk P s₁).1 = (runPages u bk P s₂).1 ∧
    SeenEquiv (runPages u bk P s₁).2 (runPages u bk P s₂).2 := by
  induction P generalizing s₁ s₂ with
  | nil => exact ⟨rfl, h⟩
  | cons p rest ih =>
    simp only [runPages]
    obtain ⟨e1, e2⟩ := processRecords_congr u bk p h
    obtain ⟨f1, f2⟩ := ih e2
    exact ⟨by rw [e1, f1], f2⟩

/-- With key encoding disabled, a run interrupted after `j` whole pages plus
`m` records of page `j`, checkpointed at either admissible cursor (the page
being replayed, or the next page when the interrupted page completed), and
resumed over the same unchanged pages, writes exactly the row list of the
uninterrupted run — no duplicates, no omissions.  With the default
`url_encode = True` this fails, as shown concretely for claim C1. -/
theorem interrupted_resume_exact_without_encoding (bk : String)
    (pages : List (List SrcRec)) (j m cursor : Nat)
    (hcur : cursor = j ∨
      (((pages.get? j).getD []).length ≤ m ∧ cursor = j + 1)) :
    interruptedThenResumed false bk pages j m cursor =
      uninterruptedRun false bk pages := by
  simp only [interruptedThenResumed, phase1Run, resumedRun, uninterruptedRun]
  set pg : List SrcRec := (pages.get? j).getD [] with hpgdef
  set A := runPages false bk (pages.take j) ([] : List String) with hAdef
  set C := processRecords false bk (pg.take m) A.2 with hCdef
  have hseed : ∀ x ∈ List.map csvSeedIdent (A.1 ++ C.1), x ∈ C.2 := by
    intro x hx
    obtain ⟨row, hrow, rfl⟩ := List.mem_map.mp hx
    rcases List.mem_append.mp hrow with h | h
    · exact processRecords_seen_mono false bk (pg.take m)
        (runPages_emitted bk (pages.take j) [] h)
    · exact processRecords_emitted bk (pg.take m) A.2 h
  have hequiv : SeenEquiv (C.2 ++ List.map csvSeedIdent (A.1 ++ C.1)) C.2 := by
    intro x
    constructor
    · intro hx
      rcases List.mem_append.mp hx with h | h
      · exact h
      · exact hseed x h
    · exact fun hx => List.mem_append_left _ hx
  rw [(runPages_congr false bk (pages.drop cursor) hequiv).1]
  conv_rhs => rw [← List.take_append_drop j pages]
  rw [runPages_append, ← hAdef]
  dsimp only
  rcases hcur with hc | ⟨hm, hc⟩
  · rw [hc]
    by_cases hj : j < pages.length
    · have hpg_eq : pg = pages[j] := by
        rw [hpgdef, List.get?_eq_getElem?, List.getElem?_eq_getElem hj,
          Option.getD_some]
      have hdrop : pages.drop j = pg :: pages.drop (j + 1) := by
        rw [hpg_eq]
        exact List.drop_eq_getElem_cons hj
      rw [hdrop]
      simp only [runPages]
      have hskip : processRecords false bk pg C.2 =
          processRecords false bk (pg.drop m) C.2 := by
        conv_lhs => rw [← List.take_append_drop m pg]
        exact processRecords_skip false bk (pg.take m) (pg.drop m) C.2
          (fun r hr => processRecords_marks false bk (pg.take m) hr)
      have hsplit : processRecords false bk pg A.2 =
          (C.1 ++ (processRecords false bk (pg.drop m) C.2).1,
           (processRecords false bk (pg.drop m) C.2).2) := by
        conv_lhs => rw [← List.take_append_drop m pg]
        rw [processRecords_append, ← hCdef]
      rw [hskip, hsplit]
      dsimp only
      simp [List.append_assoc]
    · have hpg_nil : pg = [] := by
        rw [hpgdef, List.get?_eq_none.mpr (by omega), Option.getD_none]
      have hdrop : pages.drop j = [] := List.drop_eq_nil_of_le (by omega)
      have hC2 : C = ([], A.2) := by
        rw [hCdef, hpg_nil, List.take_nil]
        rfl
      rw [hdrop]
      simp only [runPages]
      rw [hC2]
      simp
  · rw [hc]
    by_cases hj : j < pages.length
    · have hpg_eq : pg = pages[j] := by
        rw [hpgdef, List.get?_eq_getElem?, List.getElem?_eq_getElem hj,
          Option.getD_some]
      have hdrop : pages.drop j = pg :: pages.drop (j + 1) := by
        rw [hpg_eq]
        exact List.drop_eq_getElem_cons hj
      have hCfull : C = processRecords false bk pg A.2 := by
        rw [hCdef, List.take_of_length_le hm]
      rw [hdrop]
      simp only [runPages]
      rw [← hCfull]
      simp [List.append_assoc]
    · have hpg_nil : pg = [] := by
        rw [hpgdef, List.get?_eq_none.mpr (by omega), Option.getD_none]
      have hdrop1 : pages.drop (j + 1) = [] := List.drop_eq_nil_of_le (by omega)
      have hdrop : pages.drop j = [] := List.drop_eq_nil_of_le (by omega)
      have hC2 : C = ([], A.2) := by
        rw [hCdef, hpg_nil, List.take_nil]
        rfl
      rw [hdrop1, hdrop]
      simp only [runPages]
      rw [hC2]
      simp

end S3Export
